import Mathlib

/-!
Verification of the blog CRUD API (TypeScript worker, `src/index.ts`) against its
natural-language specification.

Modelling conventions for the shallow embedding:
* JavaScript strings are modelled as Lean `String` (a list of characters); the
  UTF-16 code-unit view of JS is not modelled, all concrete inputs are ASCII.
* The D1 store is a record of row lists plus autoincrement counters; a SQL
  `INSERT` appends a row with the next id, `SELECT ... .first()` is `List.find?`,
  `UPDATE ... WHERE` maps over rows, `DELETE ... WHERE` filters rows, and
  cascade rules follow `schema.sql`.  Store writes themselves always succeed.
* `getCurrentTimestamp()` (`new Date().toISOString()`) and `Date.now()` are
  modelled as request-level parameters `ts : String` and `ms : Nat`; where a
  proof needs it we carry the hypothesis that an ISO timestamp is a non-empty
  string.
* `new URL(u).hostname` is modelled by an explicit collaborator
  `ph : String → Option String`; `none` models the constructor throwing.
* JS truthiness on optional JSON fields is modelled by `truthyStr` / `truthyInt`,
  and the `x || null` binding idiom by `jsOrNullStr` / `jsOrNullInt` / `jsOrInt0`.
-/

namespace BlogApi

set_option maxRecDepth 8192

/-! ## JavaScript string primitives -/

/-- Whitespace for the purposes of `String.prototype.trim` and `parseInt`
(ASCII fragment of the JS WhiteSpace/LineTerminator classes). -/
def isJsWs (c : Char) : Bool :=
  c == ' ' || c == '\t' || c == '\n' || c == '\r' || c == '\x0b' || c == '\x0c'

/-- Model of `String.prototype.trim`. -/
def jsTrim (s : String) : String :=
  ⟨((s.data.dropWhile isJsWs).reverse.dropWhile isJsWs).reverse⟩

/-- Model of `String.prototype.toLowerCase` (character-wise lowering; the
ASCII fragment is what the workflow relies on). -/
def strToLower (s : String) : String :=
  ⟨s.data.map Char.toLower⟩

/-- Model of `String.prototype.substring(a, b)`: both indices are clamped to
the string length and swapped when out of order. -/
def jsSubstring (s : String) (a b : Nat) : String :=
  let a' := min a s.data.length
  let b' := min b s.data.length
  ⟨(s.data.take (max a' b')).drop (min a' b')⟩

/-- Model of `String.prototype.endsWith`. -/
def jsEndsWith (suf s : String) : Bool :=
  suf.data.isSuffixOf s.data

/-- Helper for `String.prototype.split(/[.!?]/)`: is `c` a sentence
terminator of the title regex? -/
def isSentenceTerm (c : Char) : Bool :=
  c == '.' || c == '!' || c == '?'

/-- Splitter behind `split(/[.!?]/)`: cuts the character list at every
sentence terminator (the terminator itself is dropped, empty pieces are kept,
as the JS `split` does). -/
def splitTermsAux : List Char → List Char → List (List Char)
  | [], acc => [acc.reverse]
  | c :: rest, acc =>
    if isSentenceTerm c then acc.reverse :: splitTermsAux rest []
    else splitTermsAux rest (c :: acc)

/-- Model of `postText.split(/[.!?]/)`. -/
def jsSplitTerms (s : String) : List String :=
  (splitTermsAux s.data []).map (fun l => ⟨l⟩)

/-- First index (if any) at which `pat` occurs as a sublist. -/
def findSub (pat : List Char) : List Char → Option Nat
  | [] => if pat.isEmpty then some 0 else none
  | l@(_ :: rest) =>
    if pat.isPrefixOf l then some 0
    else (findSub pat rest).map (· + 1)

/-- Model of `String.prototype.replace(pat, rep)` with a plain-string pattern:
only the first occurrence is replaced. -/
def jsReplaceFirst (pat rep s : String) : String :=
  match findSub pat.data s.data with
  | none => s
  | some n => ⟨s.data.take n ++ rep.data ++ s.data.drop (n + pat.data.length)⟩

/-! ## `parseInt` -/

def isDecDigit (c : Char) : Bool := '0' ≤ c && c ≤ '9'

def isHexDigitJs (c : Char) : Bool :=
  isDecDigit c || ('a' ≤ c && c ≤ 'f') || ('A' ≤ c && c ≤ 'F')

def decVal (c : Char) : Nat := c.toNat - '0'.toNat

def hexVal (c : Char) : Nat :=
  if isDecDigit c then decVal c
  else if 'a' ≤ c && c ≤ 'f' then c.toNat - 'a'.toNat + 10
  else c.toNat - 'A'.toNat + 10

def digitsVal (radix : Nat) (dv : Char → Nat) (ds : List Char) : Nat :=
  ds.foldl (fun acc c => acc * radix + dv c) 0

/-- Model of the JS `parseInt(s)` call with no radix argument: skip leading
whitespace, read an optional sign, then either a `0x`/`0X` hexadecimal literal
or a run of decimal digits, ignoring everything after the digits.  `none`
models the `NaN` result.  (Double rounding above 2^53 is not modelled.) -/
def parseIntJs (s : String) : Option Int :=
  let cs := s.data.dropWhile isJsWs
  let sgn : Int := match cs with | '-' :: _ => -1 | _ => 1
  let cs1 : List Char := match cs with
    | '-' :: r => r
    | '+' :: r => r
    | _ => cs
  match cs1 with
  | '0' :: x :: r =>
    if x == 'x' || x == 'X' then
      let ds := r.takeWhile isHexDigitJs
      if ds.isEmpty then none else some (sgn * Int.ofNat (digitsVal 16 hexVal ds))
    else
      let ds := (('0' : Char) :: x :: r).takeWhile isDecDigit
      if ds.isEmpty then none else some (sgn * Int.ofNat (digitsVal 10 decVal ds))
  | _ =>
    let ds := cs1.takeWhile isDecDigit
    if ds.isEmpty then none else some (sgn * Int.ofNat (digitsVal 10 decVal ds))

/-! ## JS truthiness on optional JSON fields -/

/-- Truthiness of an optional string field (`undefined`/`null`/`""` are falsy). -/
def truthyStr : Option String → Bool
  | none => false
  | some s => !s.isEmpty

/-- Truthiness of an optional numeric field (`undefined`/`null`/`0` are falsy). -/
def truthyInt : Option Int → Bool
  | none => false
  | some n => n != 0

/-- The `v || null` binding idiom on a string field. -/
def jsOrNullStr (o : Option String) : Option String :=
  if truthyStr o then o else none

/-- The `v || null` binding idiom on a numeric field. -/
def jsOrNullInt (o : Option Int) : Option Int :=
  if truthyInt o then o else none

/-- The `v || 0` binding idiom on a numeric field. -/
def jsOrInt0 (o : Option Int) : Int :=
  if truthyInt o then o.getD 0 else 0

/-! ## Derived-field synthesis of the simple-post workflow (`handleSimplePost`) -/

/-- Title synthesis (src/index.ts lines 1021-1028), for the `i`-th (0-based)
entry whose trimmed text is `postText`:
`postText.split(/[.!?]/)[0].substring(0, 50).trim()`, then append `"..."` when
the result has length exactly 50 and does not already end in `"..."`, then fall
back to `"Post " ++ (i+1)` when empty. -/
def mkTitle (i : Nat) (postText : String) : String :=
  let t1 := jsTrim (jsSubstring ((jsSplitTerms postText).headD "") 0 50)
  let t2 := if t1.length == 50 && !(jsEndsWith "..." t1) then t1 ++ "..." else t1
  if t2.isEmpty then "Post " ++ toString (i + 1) else t2

/-- Is `c` in the `\w` class of the slug regex? -/
def isWordChar (c : Char) : Bool :=
  ('a' ≤ c && c ≤ 'z') || ('A' ≤ c && c ≤ 'Z') || isDecDigit c || c == '_'

/-- Replace every maximal run of `p`-characters by the single character `r`
(the effect of a global regex replace of `X+` by one character). -/
def collapseRuns (p : Char → Bool) (r : Char) : List Char → List Char
  | [] => []
  | [c] => if p c then [r] else [c]
  | c :: d :: rest =>
    if p c && p d then collapseRuns p r (d :: rest)
    else (if p c then r else c) :: collapseRuns p r (d :: rest)

/-- Post-slug synthesis (src/index.ts lines 1031-1035):
lower-case the title, strip characters outside `[\w\s-]`, turn whitespace runs
into single hyphens, collapse hyphen runs, trim outer hyphens, and append
`-{Date.now()}-{i}`. -/
def mkSlug (ms : Nat) (i : Nat) (title : String) : String :=
  let cs := (strToLower title).data
  let cs := cs.filter (fun c => isWordChar c || isJsWs c || c == '-')
  let cs := collapseRuns isJsWs '-' cs
  let cs := collapseRuns (fun c => c == '-') '-' cs
  let cs := ((cs.dropWhile (fun c => c == '-')).reverse.dropWhile (fun c => c == '-')).reverse
  String.mk cs ++ "-" ++ toString ms ++ "-" ++ toString i

/-- Excerpt synthesis (src/index.ts lines 1038-1040) on the trimmed text:
`postText.length > 150 ? postText.substring(0, 150).trim() + '...' : postText`. -/
def mkExcerpt (postText : String) : String :=
  if 150 < postText.length then jsTrim (jsSubstring postText 0 150) ++ "..."
  else postText

/-- Blog-name candidate from a hostname (src/index.ts line 948):
`hostname.replace('www.', '').replace(/\.[^/.]+$/, '')` — note that the first
`replace` removes the first occurrence of `"www."` anywhere, and the second
strips a final dot-extension segment. -/
def stripLastExt (s : String) : String :=
  let rev := s.data.reverse
  let ext := rev.takeWhile (fun c => !(c == '.' || c == '/'))
  if ext.isEmpty then s
  else
    match rev.drop ext.length with
    | '.' :: rest => ⟨rest.reverse⟩
    | _ => s

def blogNameOfHost (host : String) : String :=
  stripLastExt (jsReplaceFirst "www." "" host)

/-- The scan behind the global regex replace `/[^a-z0-9]/g → '-'`: each single
character outside `[a-z0-9]` is replaced by one hyphen. -/
def replaceNonAlnumAux : List Char → List Char
  | [] => []
  | c :: rest =>
    (if ('a' ≤ c && c ≤ 'z') || isDecDigit c then c else '-') :: replaceNonAlnumAux rest

/-- Blog-slug synthesis (src/index.ts line 949):
`blogName.toLowerCase().replace(/[^a-z0-9]/g, '-')`. -/
def blogSlugOfName (name : String) : String :=
  ⟨replaceNonAlnumAux (strToLower name).data⟩

/-- Model of `name.charAt(0).toUpperCase() + name.slice(1)` (src/index.ts
line 955). -/
def capitalizeFirst (s : String) : String :=
  match s.data with
  | [] => ""
  | c :: rest => ⟨c.toUpper :: rest⟩

/-! ## Data model: rows and store

Row fields follow the interfaces of src/index.ts and the columns of
`schema.sql`.  All ids are integers assigned from per-table autoincrement
counters. -/

structure BlogRow where
  BlogId : Int
  Name : String
  Slug : String
  Description : Option String
  Url : Option String
  CreatedAt : String
deriving DecidableEq, Repr

structure AuthorRow where
  AuthorId : Int
  BlogId : Int
  Name : String
  Email : Option String
  ProfileUrl : Option String
  Bio : Option String
  CreatedAt : String
deriving DecidableEq, Repr

structure CategoryRow where
  CategoryId : Int
  BlogId : Int
  Name : String
  Slug : Option String
deriving DecidableEq, Repr

structure PostRow where
  PostId : Int
  BlogId : Int
  AuthorId : Option Int
  CategoryId : Option Int
  Title : String
  Slug : String
  Content : Option String
  Excerpt : Option String
  PublishedAt : Option String
  IsPublished : Int
  Views : Int
  ExternalId : Option String
  CreatedAt : String
  UpdatedAt : Option String
deriving DecidableEq, Repr

structure CommentRow where
  CommentId : Int
  PostId : Int
  AuthorName : Option String
  AuthorEmail : Option String
  Content : String
  CreatedAt : String
  IsApproved : Int
  ExternalId : Option String
deriving DecidableEq, Repr

/-- The D1 database state.  `postTags` holds `(PostId, TagId)` pairs.  The
`next*` counters model the autoincrement primary keys. -/
structure Store where
  blogs : List BlogRow
  authors : List AuthorRow
  categories : List CategoryRow
  posts : List PostRow
  postTags : List (Int × Int)
  comments : List CommentRow
  nextBlogId : Int
  nextAuthorId : Int
  nextCategoryId : Int
  nextPostId : Int
deriving DecidableEq, Repr

def emptyStore : Store :=
  { blogs := [], authors := [], categories := [], posts := [], postTags := [],
    comments := [], nextBlogId := 1, nextAuthorId := 1, nextCategoryId := 1,
    nextPostId := 1 }

/-- Autoincrement ids of present blog rows are below the blog counter (true of
every state the store can actually be in). -/
def blogsWFb (s : Store) : Bool :=
  s.blogs.all (fun b => decide (b.BlogId < s.nextBlogId))

def authorsWFb (s : Store) : Bool :=
  s.authors.all (fun a => decide (a.AuthorId < s.nextAuthorId))

def categoriesWFb (s : Store) : Bool :=
  s.categories.all (fun c => decide (c.CategoryId < s.nextCategoryId))

def postsWFb (s : Store) : Bool :=
  s.posts.all (fun p => decide (p.PostId < s.nextPostId))

/-- Well-formedness of the whole store. -/
def storeWFb (s : Store) : Bool :=
  blogsWFb s && authorsWFb s && categoriesWFb s && postsWFb s

/-! ## Store operations (D1 statement semantics) -/

def findBlogById (n : Int) (s : Store) : Option BlogRow :=
  s.blogs.find? (fun b => b.BlogId == n)

/-- `SELECT * FROM Blogs WHERE Url = ?`, first row.  A `NULL` Url never
matches. -/
def findBlogByUrl (url : String) (s : Store) : Option BlogRow :=
  s.blogs.find? (fun b => b.Url == some url)

def findAuthorById (n : Int) (s : Store) : Option AuthorRow :=
  s.authors.find? (fun a => a.AuthorId == n)

/-- `SELECT * FROM Authors WHERE BlogId = ? LIMIT 1`, in store order. -/
def findAuthorByBlog (bid : Int) (s : Store) : Option AuthorRow :=
  s.authors.find? (fun a => a.BlogId == bid)

def findCategoryById (n : Int) (s : Store) : Option CategoryRow :=
  s.categories.find? (fun c => c.CategoryId == n)

def findCategoryByBlog (bid : Int) (s : Store) : Option CategoryRow :=
  s.categories.find? (fun c => c.BlogId == bid)

def findPostById (n : Int) (s : Store) : Option PostRow :=
  s.posts.find? (fun p => p.PostId == n)

def insertBlogRow (name slug : String) (descr url : Option String) (ts : String)
    (s : Store) : Int × Store :=
  (s.nextBlogId,
   { s with
     blogs := s.blogs ++
       [{ BlogId := s.nextBlogId, Name := name, Slug := slug, Description := descr,
          Url := url, CreatedAt := ts }],
     nextBlogId := s.nextBlogId + 1 })

def insertAuthorRow (bid : Int) (name : String) (email profileUrl bio : Option String)
    (ts : String) (s : Store) : Int × Store :=
  (s.nextAuthorId,
   { s with
     authors := s.authors ++
       [{ AuthorId := s.nextAuthorId, BlogId := bid, Name := name, Email := email,
          ProfileUrl := profileUrl, Bio := bio, CreatedAt := ts }],
     nextAuthorId := s.nextAuthorId + 1 })

def insertCategoryRow (bid : Int) (name : String) (slug : Option String)
    (s : Store) : Int × Store :=
  (s.nextCategoryId,
   { s with
     categories := s.categories ++
       [{ CategoryId := s.nextCategoryId, BlogId := bid, Name := name, Slug := slug }],
     nextCategoryId := s.nextCategoryId + 1 })

/-- Insert a post; the row is built from the assigned id. -/
def insertPostRow (mk : Int → PostRow) (s : Store) : Int × Store :=
  (s.nextPostId,
   { s with posts := s.posts ++ [mk s.nextPostId], nextPostId := s.nextPostId + 1 })

/-! ## Response envelope -/

/-- An HTTP response: `ok` is `createSuccessResponse` (status 200), `err` is
`createErrorResponse` with the given status. -/
inductive Resp (α : Type) where
  | ok (v : α)
  | err (msg : String) (status : Nat)
deriving DecidableEq, Repr

def statusOfResp : Resp α → Nat
  | .ok _ => 200
  | .err _ st => st

/-! ## Router id parsing (src/index.ts lines 92-93)

`const id = pathSegments[2] ? parseInt(pathSegments[2]) : null` — a missing
third segment gives `null`, an unparseable one gives `NaN`.  Every later use of
`id` is either the truthiness test `if (id)` or a query binding behind that
test, so `null` and `NaN` (both falsy) are modelled together as `none`. -/
def routeThirdSegment (seg : Option String) : Option Int :=
  match seg with
  | none => none
  | some t => if t.isEmpty then none else parseIntJs t

/-! ## Blogs handler (`handleBlogs`), per method -/

inductive BlogsGetPayload where
  | one (b : BlogRow)
  | many (bs : List BlogRow)
deriving DecidableEq, Repr

/-- Insertion step for `ORDER BY CreatedAt DESC`. -/
def insertByCreatedDesc (b : BlogRow) : List BlogRow → List BlogRow
  | [] => [b]
  | x :: xs =>
    if decide (x.CreatedAt ≤ b.CreatedAt) then b :: x :: xs
    else x :: insertByCreatedDesc b xs

/-- `SELECT * FROM Blogs ORDER BY CreatedAt DESC`. -/
def allBlogsNewestFirst (s : Store) : List BlogRow :=
  s.blogs.foldr insertByCreatedDesc []

/-- The `GET` arm of `handleBlogs` (src/index.ts lines 123-135). -/
def handleBlogsGet (i : Option Int) (s : Store) : Resp BlogsGetPayload :=
  match i with
  | some n =>
    if n == 0 then .ok (.many (allBlogsNewestFirst s))
    else
      match findBlogById n s with
      | none => .err "Blog not found" 404
      | some b => .ok (.one b)
  | none => .ok (.many (allBlogsNewestFirst s))

/-- The JSON body of a blog POST/PUT request. -/
structure BlogBody where
  Name : Option String
  Slug : Option String
  Description : Option String
  Url : Option String
deriving DecidableEq, Repr

/-- The `PUT` arm of `handleBlogs` (src/index.ts lines 161-184): after
validation it runs the `UPDATE` (a no-op when no row has the id) and answers
`createSuccessResponse` of the re-read row — which is `null` when the id is
absent. -/
def handleBlogsPut (i : Option Int) (body : BlogBody) (s : Store) :
    Resp (Option BlogRow) × Store :=
  match i with
  | some n =>
    if n == 0 then (.err "Blog ID is required for update" 400, s)
    else if truthyStr body.Name && truthyStr body.Slug then
      let s1 : Store :=
        { s with
          blogs := s.blogs.map (fun b =>
            if b.BlogId == n then
              { b with
                Name := body.Name.getD "", Slug := body.Slug.getD "",
                Description := jsOrNullStr body.Description,
                Url := jsOrNullStr body.Url }
            else b) }
      (.ok (findBlogById n s1), s1)
    else (.err "Name and Slug are required" 400, s)
  | none => (.err "Blog ID is required for update" 400, s)

/-- Cascade effect of `DELETE FROM Blogs WHERE BlogId = ?` under the
`ON DELETE CASCADE` rules of `schema.sql`: owned authors, categories and posts
go, and with the posts their post-tag links and comments. -/
def deleteBlogCascade (n : Int) (s : Store) : Store :=
  let removedPostIds := (s.posts.filter (fun p => p.BlogId == n)).map (·.PostId)
  { s with
    blogs := s.blogs.filter (fun b => !(b.BlogId == n)),
    authors := s.authors.filter (fun a => !(a.BlogId == n)),
    categories := s.categories.filter (fun c => !(c.BlogId == n)),
    posts := s.posts.filter (fun p => !(p.BlogId == n)),
    postTags := s.postTags.filter (fun pt => !(removedPostIds.contains pt.1)),
    comments := s.comments.filter (fun cm => !(removedPostIds.contains cm.PostId)) }

/-- The `DELETE` arm of `handleBlogs` (src/index.ts lines 186-192): no
existence check is made before the delete. -/
def handleBlogsDelete (i : Option Int) (s : Store) : Resp String × Store :=
  match i with
  | some n =>
    if n == 0 then (.err "Blog ID is required for deletion" 400, s)
    else (.ok "Blog deleted successfully", deleteBlogCascade n s)
  | none => (.err "Blog ID is required for deletion" 400, s)

/-- The `DELETE` arm of `handleComments` (src/index.ts lines 909-915). -/
def handleCommentsDelete (i : Option Int) (s : Store) : Resp String × Store :=
  match i with
  | some n =>
    if n == 0 then (.err "Comment ID is required for deletion" 400, s)
    else (.ok "Comment deleted successfully",
          { s with comments := s.comments.filter (fun cm => !(cm.CommentId == n)) })
  | none => (.err "Comment ID is required for deletion" 400, s)

/-! ## Posts handler (`handlePosts`) -/

/-- A post row enriched with the display names of the `LEFT JOIN`s used by
every post read path. -/
structure EnrichedPost where
  post : PostRow
  BlogName : Option String
  AuthorName : Option String
  CategoryName : Option String
deriving DecidableEq, Repr

/-- Re-read of a post with its Blog/Author/Category names joined in
(`SELECT p.*, b.Name, a.Name, c.Name ... WHERE p.PostId = ?`). -/
def enrichPostById (pid : Int) (s : Store) : Option EnrichedPost :=
  match findPostById pid s with
  | none => none
  | some p =>
    some { post := p,
           BlogName := (findBlogById p.BlogId s).map (·.Name),
           AuthorName := (p.AuthorId.bind (fun aid => findAuthorById aid s)).map (·.Name),
           CategoryName := (p.CategoryId.bind (fun cid => findCategoryById cid s)).map (·.Name) }

/-- The JSON body of a post POST/PUT request (`Post & { tags?: number[] }`). -/
structure PostBody where
  BlogId : Option Int
  AuthorId : Option Int
  CategoryId : Option Int
  Title : Option String
  Slug : Option String
  Content : Option String
  Excerpt : Option String
  PublishedAt : Option String
  IsPublished : Option Int
  Views : Option Int
  ExternalId : Option String
  UpdatedAt : Option String
  tags : Option (List Int)
deriving DecidableEq, Repr

/-- Columns bound by the `INSERT INTO Posts` of the generic create
(src/index.ts lines 536-559), after the `CreatedAt`/`PublishedAt` mutations. -/
def postRowOfBody (ts : String) (body : PostBody) (pid : Int) : PostRow :=
  { PostId := pid, BlogId := body.BlogId.getD 0,
    AuthorId := jsOrNullInt body.AuthorId,
    CategoryId := jsOrNullInt body.CategoryId,
    Title := body.Title.getD "", Slug := body.Slug.getD "",
    Content := jsOrNullStr body.Content,
    Excerpt := jsOrNullStr body.Excerpt,
    PublishedAt := jsOrNullStr
      (if truthyInt body.IsPublished && !truthyStr body.PublishedAt then some ts
       else body.PublishedAt),
    IsPublished := jsOrInt0 body.IsPublished,
    Views := jsOrInt0 body.Views,
    ExternalId := jsOrNullStr body.ExternalId,
    CreatedAt := ts,
    UpdatedAt := jsOrNullStr body.UpdatedAt }

/-- Columns set by the `UPDATE Posts` of the generic update (src/index.ts
lines 621-641); `CreatedAt` is not touched. -/
def updatePostFields (ts : String) (body : PostBody) (p : PostRow) : PostRow :=
  { p with
    BlogId := body.BlogId.getD 0,
    AuthorId := jsOrNullInt body.AuthorId,
    CategoryId := jsOrNullInt body.CategoryId,
    Title := body.Title.getD "", Slug := body.Slug.getD "",
    Content := jsOrNullStr body.Content,
    Excerpt := jsOrNullStr body.Excerpt,
    PublishedAt := jsOrNullStr
      (if truthyInt body.IsPublished && !truthyStr body.PublishedAt then some ts
       else body.PublishedAt),
    IsPublished := jsOrInt0 body.IsPublished,
    Views := jsOrInt0 body.Views,
    ExternalId := jsOrNullStr body.ExternalId,
    UpdatedAt := some ts }

/-- The per-tag `INSERT INTO PostTags` loop. -/
def tagsInsert (pid : Int) (l : List Int) (s : Store) : Store :=
  l.foldl (fun st tid => { st with postTags := st.postTags ++ [(pid, tid)] }) s

/-- `DELETE FROM PostTags WHERE PostId = ?`. -/
def tagsClear (pid : Int) (s : Store) : Store :=
  { s with postTags := s.postTags.filter (fun pt => !(pt.1 == pid)) }

/-- The `UPDATE Posts ... WHERE PostId = ?` statement. -/
def postsUpdStore (ts : String) (body : PostBody) (pid : Int) (s : Store) : Store :=
  { s with
    posts := s.posts.map (fun p =>
      if p.PostId == pid then updatePostFields ts body p else p) }

/-- The `POST` arm of `handlePosts` (src/index.ts lines 508-584). -/
def handlePostsCreate (ts : String) (body : PostBody) (s : Store) :
    Resp (Option EnrichedPost) × Store :=
  if truthyStr body.Title && truthyStr body.Slug && truthyInt body.BlogId then
    if (findBlogById (body.BlogId.getD 0) s).isNone then (.err "Blog not found" 404, s)
    else if truthyInt body.AuthorId &&
        (findAuthorById (body.AuthorId.getD 0) s).isNone then
      (.err "Author not found" 404, s)
    else if truthyInt body.CategoryId &&
        (findCategoryById (body.CategoryId.getD 0) s).isNone then
      (.err "Category not found" 404, s)
    else
      match insertPostRow (postRowOfBody ts body) s with
      | (pid, s1) =>
        match body.tags with
        | some l => (.ok (enrichPostById pid (tagsInsert pid l s1)), tagsInsert pid l s1)
        | none => (.ok (enrichPostById pid s1), s1)
  else (.err "Title, Slug, and BlogId are required" 400, s)

/-- The `PUT` arm of `handlePosts` (src/index.ts lines 586-669). -/
def handlePostsUpdate (ts : String) (i : Option Int) (body : PostBody) (s : Store) :
    Resp (Option EnrichedPost) × Store :=
  match i with
  | some pid =>
    if pid == 0 then (.err "Post ID is required for update" 400, s)
    else if truthyStr body.Title && truthyStr body.Slug && truthyInt body.BlogId then
      if (findBlogById (body.BlogId.getD 0) s).isNone then (.err "Blog not found" 404, s)
      else if truthyInt body.AuthorId &&
          (findAuthorById (body.AuthorId.getD 0) s).isNone then
        (.err "Author not found" 404, s)
      else if truthyInt body.CategoryId &&
          (findCategoryById (body.CategoryId.getD 0) s).isNone then
        (.err "Category not found" 404, s)
      else
        match body.tags with
        | some l =>
          (.ok (enrichPostById pid (tagsInsert pid l (tagsClear pid (postsUpdStore ts body pid s)))),
           tagsInsert pid l (tagsClear pid (postsUpdStore ts body pid s)))
        | none =>
          (.ok (enrichPostById pid (postsUpdStore ts body pid s)),
           postsUpdStore ts body pid s)
    else (.err "Title, Slug, and BlogId are required" 400, s)
  | none => (.err "Post ID is required for update" 400, s)

/-! ## Post collection filtering (`handlePosts`, GET without id,
src/index.ts lines 452-505)

Each query parameter is `url.searchParams.get(name)`: `none` when absent,
`some ""` when present with an empty value; the guard `if (param)` skips both.
-/

structure PostQuery where
  blog : Option String
  author : Option String
  category : Option String
  published : Option String
  search : Option String
  limit : Option String
  offset : Option String
deriving DecidableEq, Repr

/-- Clause `AND p.<col> = ?` for a non-null integer column, added only when the
parameter is truthy; the bound value is `parseInt(param)` (an unparseable
parameter binds `NaN`, which equals no row value). -/
def intFilterCond (param : Option String) (field : Int) : Bool :=
  match param with
  | none => true
  | some v =>
    if v.isEmpty then true
    else
      match parseIntJs v with
      | some n => field == n
      | none => false

/-- Same clause for a nullable integer column (`AuthorId`, `CategoryId`):
a `NULL` field never satisfies the SQL equality. -/
def optIntFilterCond (param : Option String) (field : Option Int) : Bool :=
  match param with
  | none => true
  | some v =>
    if v.isEmpty then true
    else
      match parseIntJs v, field with
      | some n, some f => f == n
      | _, _ => false

/-- Clause `AND p.IsPublished = ?` with binding
`published === 'true' ? 1 : 0`, added only when the parameter is truthy
(src/index.ts lines 490-493). -/
def publishedCond (param : Option String) (p : PostRow) : Bool :=
  match param with
  | none => true
  | some v =>
    if v.isEmpty then true
    else p.IsPublished == (if v == "true" then (1 : Int) else 0)

/-- ASCII-case-insensitive `LIKE '%pat%'` containment (`NULL` column never
matches; `%`/`_` metacharacters inside the user string are not modelled). -/
def likeContains (pat : String) (field : Option String) : Bool :=
  match field with
  | none => false
  | some f => (findSub (strToLower pat).data (strToLower f).data).isSome

/-- Clause `AND (Title LIKE ? OR Content LIKE ? OR Excerpt LIKE ?)`
(src/index.ts lines 495-499). -/
def searchCond (param : Option String) (p : PostRow) : Bool :=
  match param with
  | none => true
  | some v =>
    if v.isEmpty then true
    else likeContains v (some p.Title) || likeContains v p.Content ||
         likeContains v p.Excerpt

/-- The complete `WHERE` clause built by the post-collection GET: the
conjunction of the five optional filters. -/
def postMatches (q : PostQuery) (p : PostRow) : Bool :=
  intFilterCond q.blog p.BlogId &&
  optIntFilterCond q.author p.AuthorId &&
  optIntFilterCond q.category p.CategoryId &&
  publishedCond q.published p &&
  searchCond q.search p

def insertPostByCreatedDesc (p : PostRow) : List PostRow → List PostRow
  | [] => [p]
  | x :: xs =>
    if decide (x.CreatedAt ≤ p.CreatedAt) then p :: x :: xs
    else x :: insertPostByCreatedDesc p xs

def sortPostsNewestFirst (l : List PostRow) : List PostRow :=
  l.foldr insertPostByCreatedDesc []

/-- `LIMIT ? OFFSET ?` with SQLite semantics: a negative limit means no limit,
a negative offset means zero. -/
def limitOffset (lim off : Int) (l : List PostRow) : List PostRow :=
  let l1 := l.drop off.toNat
  if lim < 0 then l1 else l1.take lim.toNat

/-- The post-collection GET (filter, order newest first, paginate, enrich).
`parseInt(limit || '50')` / `parseInt(offset || '0')`; an unparseable limit or
offset (`NaN` bound to `LIMIT`) is modelled as 0. -/
def handlePostsList (q : PostQuery) (s : Store) : Resp (List EnrichedPost) :=
  let lim := (parseIntJs (if truthyStr q.limit then q.limit.getD "" else "50")).getD 0
  let off := (parseIntJs (if truthyStr q.offset then q.offset.getD "" else "0")).getD 0
  let rows := limitOffset lim off (sortPostsNewestFirst (s.posts.filter (postMatches q)))
  .ok (rows.map (fun p =>
    { post := p,
      BlogName := (findBlogById p.BlogId s).map (·.Name),
      AuthorName := (p.AuthorId.bind (fun aid => findAuthorById aid s)).map (·.Name),
      CategoryName := (p.CategoryId.bind (fun cid => findCategoryById cid s)).map (·.Name) }))

/-! ## Simple-post ingestion workflow (`handleSimplePost`,
src/index.ts lines 923-1090) -/

/-- The parsed JSON request body.  `postTexts` distinguishes a JSON array from
any other (truthy) JSON value, matching the `Array.isArray` check. -/
inductive PostTextsVal where
  | arr (texts : List String)
  | notArr
deriving DecidableEq, Repr

structure SimpleReq where
  blogUrl : Option String
  postTexts : Option PostTextsVal
deriving DecidableEq, Repr

/-- Response of `POST /api/simple`: either an error envelope or the
`{ blog, author, category, postsCreated, posts }` payload.  Entries of `posts`
are `Option` because the code pushes the raw result of each re-read, which the
type system of the source allows to be `null`. -/
inductive SimpleResp where
  | err (msg : String) (status : Nat)
  | ok (blog : BlogRow) (author : AuthorRow) (category : CategoryRow)
       (postsCreated : Nat) (posts : List (Option EnrichedPost))
deriving DecidableEq, Repr

def statusOfSimple : SimpleResp → Nat
  | .err _ st => st
  | .ok _ _ _ _ _ => 200

/-- Step 1: find a Blog by exact Url or create one derived from the URL
(src/index.ts lines 942-968).  `ph` models `new URL(u).hostname`; when it
throws the outer catch answers the generic 500. -/
def resolveBlog (ph : String → Option String) (ts url : String) (s : Store) :
    Except (String × Nat) BlogRow × Store :=
  match findBlogByUrl url s with
  | some b => (.ok b, s)
  | none =>
    match ph url with
    | none => (.error ("Failed to create posts", 500), s)
    | some host =>
      let name := blogNameOfHost host
      let (bid, s1) := insertBlogRow (capitalizeFirst name) (blogSlugOfName name)
        (some ("Auto-created blog for " ++ host)) (some url) ts s
      match findBlogById bid s1 with
      | some b => (.ok b, s1)
      | none => (.error ("Failed to create or find blog", 500), s1)

/-- Step 2: find any Author of the blog or create the default one
(src/index.ts lines 970-991).  The email derivation re-parses the URL and can
throw before the insert runs. -/
def resolveAuthor (ph : String → Option String) (ts url : String) (b : BlogRow)
    (s : Store) : Except (String × Nat) AuthorRow × Store :=
  match findAuthorByBlog b.BlogId s with
  | some a => (.ok a, s)
  | none =>
    match ph url with
    | none => (.error ("Failed to create posts", 500), s)
    | some host =>
      let (aid, s1) := insertAuthorRow b.BlogId "Default Author"
        (some ("author@" ++ host)) none (some "Auto-created default author") ts s
      match findAuthorById aid s1 with
      | some a => (.ok a, s1)
      | none => (.error ("Failed to create or find author", 500), s1)

/-- Step 3: find any Category of the blog or create "General"
(src/index.ts lines 993-1012). -/
def resolveCategory (b : BlogRow) (s : Store) :
    Except (String × Nat) CategoryRow × Store :=
  match findCategoryByBlog b.BlogId s with
  | some c => (.ok c, s)
  | none =>
    let (cid, s1) := insertCategoryRow b.BlogId "General" (some "general") s
    match findCategoryById cid s1 with
    | some c => (.ok c, s1)
    | none => (.error ("Failed to create or find category", 500), s1)

/-- The post row inserted for the trimmed text `pt` at loop index `i`
(src/index.ts lines 1044-1061). -/
def simplePostRow (ts : String) (ms : Nat) (b : BlogRow) (a : AuthorRow)
    (c : CategoryRow) (pt : String) (i : Nat) (pid : Int) : PostRow :=
  { PostId := pid, BlogId := b.BlogId, AuthorId := some a.AuthorId,
    CategoryId := some c.CategoryId, Title := mkTitle i pt,
    Slug := mkSlug ms i (mkTitle i pt), Content := some pt,
    Excerpt := some (mkExcerpt pt), PublishedAt := some ts, IsPublished := 1,
    Views := 0, ExternalId := none, CreatedAt := ts, UpdatedAt := some ts }

/-- Step 4: the per-text loop (src/index.ts lines 1016-1076): entries blank
after trimming are skipped but still advance the loop index; each other entry
is synthesized, inserted and re-read enriched. -/
def createPosts (ts : String) (ms : Nat) (b : BlogRow) (a : AuthorRow)
    (c : CategoryRow) : List String → Nat → Store → List (Option EnrichedPost) × Store
  | [], _, s => ([], s)
  | t :: rest, i, s =>
    let pt := jsTrim t
    if pt.isEmpty then createPosts ts ms b a c rest (i + 1) s
    else
      let (pid, s1) := insertPostRow (simplePostRow ts ms b a c pt i) s
      let e := enrichPostById pid s1
      let (es, s2) := createPosts ts ms b a c rest (i + 1) s1
      (e :: es, s2)

/-- `handleSimplePost` (src/index.ts lines 923-1090).  The JSON body arrives
already parsed; a parse failure would surface as the generic 500 and leave the
store unchanged, which this model does not need to distinguish. -/
def handleSimplePost (ph : String → Option String) (ts : String) (ms : Nat)
    (method : String) (req : SimpleReq) (s : Store) : SimpleResp × Store :=
  if !(method == "POST") then
    (.err "Only POST method allowed for simple posts" 405, s)
  else
    match req.blogUrl, req.postTexts with
    | some url, some (.arr texts) =>
      if url.isEmpty then
        (.err "blogUrl (string) and postTexts (array) are required" 400, s)
      else if texts.isEmpty then
        (.err "At least one post text is required" 400, s)
      else
        match resolveBlog ph ts url s with
        | (.error e, s1) => (.err e.1 e.2, s1)
        | (.ok b, s1) =>
          match resolveAuthor ph ts url b s1 with
          | (.error e, s2) => (.err e.1 e.2, s2)
          | (.ok a, s2) =>
            match resolveCategory b s2 with
            | (.error e, s3) => (.err e.1 e.2, s3)
            | (.ok c, s3) =>
              let (es, s4) := createPosts ts ms b a c texts 0 s3
              (.ok b a c es.length es, s4)
    | _, _ => (.err "blogUrl (string) and postTexts (array) are required" 400, s)

/-- Number of entries that are non-blank after trimming — the posts a
successful ingestion run inserts. -/
def countNonBlank (texts : List String) : Nat :=
  (texts.filter (fun t => !(jsTrim t).isEmpty)).length

/-! ## Specification-side formulas (written from the words of the spec, for
comparison with the code-side definitions above) -/

/-- Truncation to the first `n` characters, as the spec words it. -/
def strTakeN (n : Nat) (s : String) : String := ⟨s.data.take n⟩

/-- The text of the entry before its first sentence terminator, as the spec
words it. -/
def beforeFirstTerm (s : String) : String :=
  ⟨s.data.takeWhile (fun c => !isSentenceTerm c)⟩

/-- Title formula exactly as claim C1 states it: text before the first
terminator, truncated to 50 characters (no trim after truncation), ellipsis
when that truncation has length exactly 50 and does not already end in "...",
fallback to "Post i+1" when empty. -/
def titleClaim (i : Nat) (entry : String) : String :=
  let t1 := strTakeN 50 (beforeFirstTerm entry)
  let t2 := if t1.length == 50 && !(jsEndsWith "..." t1) then t1 ++ "..." else t1
  if t2.isEmpty then "Post " ++ toString (i + 1) else t2

/-- Title formula as amended: the 50-character truncation is additionally
trimmed of surrounding whitespace before the length test. -/
def titleAmended (i : Nat) (entry : String) : String :=
  let t1 := jsTrim (strTakeN 50 (beforeFirstTerm entry))
  let t2 := if t1.length == 50 && !(jsEndsWith "..." t1) then t1 ++ "..." else t1
  if t2.isEmpty then "Post " ++ toString (i + 1) else t2

/-- Excerpt formula exactly as claim C2 states it: the first 150 characters
followed by "..." when the text exceeds 150 characters, else the full text. -/
def excerptClaim (t : String) : String :=
  if 150 < t.length then strTakeN 150 t ++ "..." else t

/-- Excerpt formula as amended: the 150-character truncation is additionally
trimmed of surrounding whitespace before the ellipsis is appended. -/
def excerptAmended (t : String) : String :=
  if 150 < t.length then jsTrim (strTakeN 150 t) ++ "..." else t

/-- Blog-name candidate exactly as claim C3 states it: hostname with a
leading "www." stripped and the final dot-extension segment removed. -/
def nameCandidateClaim (host : String) : String :=
  stripLastExt (if "www.".data.isPrefixOf host.data then ⟨host.data.drop 4⟩ else host)

/-- Blog-slug formula exactly as claim C3 states it: the name candidate
lower-cased with every maximal run of non-alphanumeric characters replaced by
a single hyphen. -/
def blogSlugClaim (host : String) : String :=
  ⟨collapseRuns (fun c => !(('a' ≤ c && c ≤ 'z') || isDecDigit c)) '-'
    (strToLower (nameCandidateClaim host)).data⟩

/-- Blog-slug formula as amended: the code-side name candidate (first
occurrence of "www." removed, final dot-extension stripped) lower-cased with
each single non-alphanumeric character replaced by one hyphen. -/
def slugAmendedOfHost (host : String) : String :=
  ⟨(strToLower (blogNameOfHost host)).data.map
    (fun c => if ('a' ≤ c && c ≤ 'z') || isDecDigit c then c else '-')⟩

/-! ## Concrete test instruments (hostname collaborators and inputs used by
counterexamples and witnesses) -/

def phEx : String → Option String := fun _ => some "example.com"

def phDoubleDash : String → Option String := fun _ => some "my--blog.com"

def phWwwInside : String → Option String := fun _ => some "mywww.site.com"

/-- A 160-character text: 149 letters, an inner space at position 150, ten
more letters. -/
def t160 : String := ⟨List.replicate 149 'a' ++ ' ' :: List.replicate 10 'b'⟩

def phMyblog : String → Option String := fun _ => some "myblog.com"

/-- The rows a first ingestion run of `["Hi."]` against the empty store
creates (used by the C4 witness). -/
def wBlog : BlogRow :=
  { BlogId := 1, Name := "Myblog", Slug := "myblog",
    Description := some "Auto-created blog for myblog.com",
    Url := some "https://myblog.com", CreatedAt := "T1" }

def wAuthor : AuthorRow :=
  { AuthorId := 1, BlogId := 1, Name := "Default Author",
    Email := some "author@myblog.com", ProfileUrl := none,
    Bio := some "Auto-created default author", CreatedAt := "T1" }

def wCat : CategoryRow :=
  { CategoryId := 1, BlogId := 1, Name := "General", Slug := some "general" }

def wPosts : List (Option EnrichedPost) :=
  [some
    { post :=
        { PostId := 1, BlogId := 1, AuthorId := some 1, CategoryId := some 1,
          Title := "Hi", Slug := "hi-100-0", Content := some "Hi.",
          Excerpt := some "Hi.", PublishedAt := some "T1", IsPublished := 1,
          Views := 0, ExternalId := none, CreatedAt := "T1",
          UpdatedAt := some "T1" },
      BlogName := some "Myblog", AuthorName := some "Default Author",
      CategoryName := some "General" }]

def putBodyNS : BlogBody := ⟨some "Name", some "slug", none, none⟩

def blogA : BlogRow :=
  { BlogId := 1, Name := "A", Slug := "a", Description := none,
    Url := some "https://a.com", CreatedAt := "2024-01-01T00:00:00.000Z" }

def seedStore : Store := { emptyStore with blogs := [blogA], nextBlogId := 2 }

def q0 : PostQuery := ⟨none, none, none, none, none, none, none⟩

def p0 : PostRow :=
  { PostId := 1, BlogId := 1, AuthorId := none, CategoryId := none,
    Title := "T", Slug := "t", Content := none, Excerpt := none,
    PublishedAt := none, IsPublished := 0, Views := 0, ExternalId := none,
    CreatedAt := "2024-01-01T00:00:00.000Z", UpdatedAt := none }

/-! ## Reachability by the post-writing operations (claim C7) -/

/-- The publication invariant: every published post row carries a non-null
`PublishedAt`. -/
def PublishedInv (l : List PostRow) : Prop :=
  ∀ p ∈ l, p.IsPublished = 1 → p.PublishedAt ≠ none

/-- Store states reachable from a post-free state through the Post create
operation, the Post update operation and the ingestion workflow.  The
timestamps fed to the create/update handlers are `toISOString()` results and
hence non-empty strings. -/
inductive Reach : Store → Prop where
  | init (s : Store) (h : s.posts = []) : Reach s
  | createPost (s : Store) (ts : String) (body : PostBody) (hts : ts ≠ "")
      (h : Reach s) : Reach (handlePostsCreate ts body s).2
  | updatePost (s : Store) (ts : String) (i : Option Int) (body : PostBody)
      (hts : ts ≠ "") (h : Reach s) : Reach (handlePostsUpdate ts i body s).2
  | ingest (s : Store) (ph : String → Option String) (ts : String) (ms : Nat)
      (method : String) (req : SimpleReq) (h : Reach s) :
      Reach (handleSimplePost ph ts ms method req s).2

/-- A create body publishing a post without supplying `PublishedAt`. -/
def pubBody : PostBody :=
  { BlogId := some 1, AuthorId := none, CategoryId := none, Title := some "T",
    Slug := some "t", Content := none, Excerpt := none, PublishedAt := none,
    IsPublished := some 1, Views := none, ExternalId := none, UpdatedAt := none,
    tags := none }

/-- The state reached by creating `pubBody` on the seeded store. -/
def reachedStore : Store :=
  (handlePostsCreate "2024-01-01T00:00:00.000Z" pubBody seedStore).2

/-! ## Basic lemmas about the string primitives -/

theorem take_min_length (l : List α) (n : Nat) : l.take (min n l.length) = l.take n := by
  rw [List.take_eq_take]
  simp [Nat.min_assoc]

/-- `substring(0, n)` is truncation to the first `n` characters. -/
theorem jsSubstring_zero (s : String) (n : Nat) : jsSubstring s 0 n = strTakeN n s := by
  simp only [jsSubstring, strTakeN, Nat.zero_min, Nat.min_zero, Nat.zero_max, Nat.max_zero]
  rw [List.drop_zero, take_min_length]

theorem splitTermsAux_head (l acc : List Char) :
    ∃ t, splitTermsAux l acc =
      (acc.reverse ++ l.takeWhile (fun c => !isSentenceTerm c)) :: t := by
  induction l generalizing acc with
  | nil => exact ⟨[], by simp [splitTermsAux]⟩
  | cons c rest ih =>
    by_cases hc : isSentenceTerm c
    · refine ⟨splitTermsAux rest [], ?_⟩
      simp [splitTermsAux, hc, List.takeWhile_cons]
    · obtain ⟨t, ht⟩ := ih (c :: acc)
      refine ⟨t, ?_⟩
      simp [splitTermsAux, hc, ht, List.takeWhile_cons]

/-- The head of `split(/[.!?]/)` is the text before the first terminator. -/
theorem jsSplitTerms_head (s : String) :
    (jsSplitTerms s).headD "" = beforeFirstTerm s := by
  obtain ⟨t, ht⟩ := splitTermsAux_head s.data []
  simp [jsSplitTerms, ht, beforeFirstTerm]

theorem find?_append_right (p : α → Bool) (l₁ l₂ : List α)
    (h : ∀ x ∈ l₁, p x = false) :
    (l₁ ++ l₂).find? p = l₂.find? p := by
  induction l₁ with
  | nil => rfl
  | cons a l ih =>
    simp only [List.cons_append, List.find?, h a (List.mem_cons_self a l)]
    exact ih (fun x hx => h x (List.mem_cons_of_mem a hx))

theorem replaceNonAlnumAux_eq_map (l : List Char) :
    replaceNonAlnumAux l =
      l.map (fun c => if ('a' ≤ c && c ≤ 'z') || isDecDigit c then c else '-') := by
  induction l with
  | nil => rfl
  | cons c rest ih => simp [replaceNonAlnumAux, ih]

/-! ## Claim C1 — title synthesis -/

/-- Claim C1 as stated fails on the code: for the entry "hi ! there" the
workflow trims the 50-character truncation, so the stored Title is "hi",
while the claimed formula (truncate, no trim) yields "hi " with a trailing
space. -/
theorem title_claim_counterexample :
    (handleSimplePost phEx "2024-01-01T00:00:00.000Z" 1700000000000 "POST"
        ⟨some "https://example.com", some (.arr ["hi ! there"])⟩
        emptyStore).2.posts.map PostRow.Title = ["hi"] ∧
    titleClaim 0 (jsTrim "hi ! there") = "hi " ∧
    ("hi" : String) ≠ "hi " := by
  refine ⟨rfl, rfl, by decide⟩

/-- Claim C1 amended: the synthesized Title for the `i`-th entry equals the
trimmed entry's text before its first ".", "!" or "?", truncated to 50
characters AND trimmed of surrounding whitespace, with "..." appended exactly
when that trimmed truncation is exactly 50 characters long and does not
already end in "..."; when it is empty the Title is "Post i+1". -/
theorem title_synthesis_amended (i : Nat) (entry : String) :
    mkTitle i entry = titleAmended i entry := by
  simp only [mkTitle, titleAmended, jsSubstring_zero, jsSplitTerms_head]

/-! ## Claim C2 — excerpt synthesis -/

/-- Claim C2 as stated fails on the code: for `t160` (149 letters, a space,
ten letters) the workflow trims the 150-character truncation before appending
the ellipsis, dropping the trailing space that the claimed formula keeps. -/
theorem excerpt_claim_counterexample :
    (handleSimplePost phEx "2024-01-01T00:00:00.000Z" 1700000000000 "POST"
        ⟨some "https://example.com", some (.arr [t160])⟩
        emptyStore).2.posts.map PostRow.Excerpt =
      [some (String.mk (List.replicate 149 'a') ++ "...")] ∧
    excerptClaim (jsTrim t160) = String.mk (List.replicate 149 'a' ++ [' ']) ++ "..." ∧
    String.mk (List.replicate 149 'a') ++ "..." ≠
      String.mk (List.replicate 149 'a' ++ [' ']) ++ "..." := by
  refine ⟨rfl, rfl, by decide⟩

/-- Claim C2 amended: for a trimmed text longer than 150 characters the
Excerpt is the first 150 characters with surrounding whitespace then removed,
followed by "..."; for a trimmed text of at most 150 characters it is the
full text unchanged. -/
theorem excerpt_synthesis_amended (t : String) :
    mkExcerpt t = excerptAmended t := by
  simp only [mkExcerpt, excerptAmended, jsSubstring_zero]

/-! ## Claim C3 — blog slug synthesis -/

/-- In a well-formed store, re-reading right after a blog insert returns the
inserted row. -/
theorem find_blog_after_insert (s : Store) (hwf : blogsWFb s = true)
    (row : BlogRow) (hrow : row.BlogId = s.nextBlogId) :
    (s.blogs ++ [row]).find? (fun b => b.BlogId == s.nextBlogId) = some row := by
  rw [find?_append_right]
  · simp [List.find?, hrow]
  · intro b hb
    have hlt : b.BlogId < s.nextBlogId := by
      have := (List.all_eq_true.mp hwf) b hb
      exact of_decide_eq_true this
    simp only [beq_eq_false_iff_ne, ne_eq]
    omega

/-- Claim C3 as stated fails on the code in two ways: runs of non-alphanumeric
characters give one hyphen per character (hostname "my--blog.com" produces
slug "my--blog", not "my-blog"), and the "www." strip removes the first
occurrence anywhere, not only a leading one (hostname "mywww.site.com"
produces slug "mysite", not "mywww-site"). -/
theorem blog_slug_claim_counterexample :
    (handleSimplePost phDoubleDash "T" 1 "POST"
        ⟨some "https://my--blog.com", some (.arr ["x"])⟩
        emptyStore).2.blogs.map BlogRow.Slug = ["my--blog"] ∧
    blogSlugClaim "my--blog.com" = "my-blog" ∧
    ("my--blog" : String) ≠ "my-blog" ∧
    (handleSimplePost phWwwInside "T" 1 "POST"
        ⟨some "https://mywww.site.com", some (.arr ["x"])⟩
        emptyStore).2.blogs.map BlogRow.Slug = ["mysite"] ∧
    blogSlugClaim "mywww.site.com" = "mywww-site" ∧
    ("mysite" : String) ≠ "mywww-site" := by
  refine ⟨rfl, rfl, by decide, rfl, rfl, by decide⟩

/-- Claim C3 amended: when the Blog is auto-created, its Slug is the name
candidate (hostname with the FIRST occurrence of "www." removed and the final
dot-extension segment stripped) lower-cased with EACH single non-alphanumeric
character replaced by one hyphen (so a run of k such characters yields k
hyphens). -/
theorem blog_slug_amended (ph : String → Option String) (ts url host : String)
    (s : Store) (hwf : blogsWFb s = true)
    (hnf : findBlogByUrl url s = none) (hph : ph url = some host) :
    ∃ row s1, resolveBlog ph ts url s = (.ok row, s1) ∧
      row.Slug = slugAmendedOfHost host := by
  have hfind := find_blog_after_insert s hwf
    { BlogId := s.nextBlogId, Name := capitalizeFirst (blogNameOfHost host),
      Slug := blogSlugOfName (blogNameOfHost host),
      Description := some ("Auto-created blog for " ++ host),
      Url := some url, CreatedAt := ts } rfl
  refine ⟨{ BlogId := s.nextBlogId, Name := capitalizeFirst (blogNameOfHost host),
            Slug := blogSlugOfName (blogNameOfHost host),
            Description := some ("Auto-created blog for " ++ host),
            Url := some url, CreatedAt := ts },
          { s with
            blogs := s.blogs ++
              [{ BlogId := s.nextBlogId, Name := capitalizeFirst (blogNameOfHost host),
                 Slug := blogSlugOfName (blogNameOfHost host),
                 Description := some ("Auto-created blog for " ++ host),
                 Url := some url, CreatedAt := ts }],
            nextBlogId := s.nextBlogId + 1 }, ?_, ?_⟩
  · simp only [resolveBlog, hnf, hph, insertBlogRow, findBlogById]
    rw [hfind]
  · simp only [blogSlugOfName, slugAmendedOfHost, replaceNonAlnumAux_eq_map]

/-- Witness for the amended C3 theorem at the hostname "my--blog.com" on the
empty store. -/
theorem blog_slug_amended_witness :
    blogsWFb emptyStore = true ∧
    findBlogByUrl "https://my--blog.com" emptyStore = none ∧
    ∃ row s1,
      resolveBlog phDoubleDash "T" "https://my--blog.com" emptyStore = (.ok row, s1) ∧
      row.Slug = slugAmendedOfHost "my--blog.com" :=
  ⟨rfl, rfl,
   blog_slug_amended phDoubleDash "T" "https://my--blog.com" "my--blog.com"
     emptyStore rfl rfl rfl⟩

/-! ## Claim C5 — validation failures of POST /api/simple -/

/-- Claim C5: a `POST /api/simple` body that is missing `blogUrl`, missing
`postTexts`, carries a non-array `postTexts`, or carries an empty `postTexts`
array, is answered with a status-400 validation error and the store is left
unchanged. -/
theorem simple_validation_no_side_effects (ph : String → Option String)
    (ts : String) (ms : Nat) (req : SimpleReq) (s : Store)
    (h : req.blogUrl = none ∨ req.postTexts = none ∨
         req.postTexts = some .notArr ∨ req.postTexts = some (.arr [])) :
    ∃ msg, handleSimplePost ph ts ms "POST" req s = (.err msg 400, s) := by
  obtain ⟨u, t⟩ := req
  rcases h with h | h | h | h
  · subst h
    rcases t with _ | pt
    · exact ⟨_, rfl⟩
    · rcases pt with l | _
      · exact ⟨_, rfl⟩
      · exact ⟨_, rfl⟩
  · subst h
    rcases u with _ | url
    · exact ⟨_, rfl⟩
    · exact ⟨_, rfl⟩
  · subst h
    rcases u with _ | url
    · exact ⟨_, rfl⟩
    · exact ⟨_, rfl⟩
  · subst h
    rcases u with _ | url
    · exact ⟨_, rfl⟩
    · by_cases hu : url.isEmpty
      · refine ⟨"blogUrl (string) and postTexts (array) are required", ?_⟩
        simp [handleSimplePost, hu]
      · refine ⟨"At least one post text is required", ?_⟩
        simp [handleSimplePost, hu]

/-- Witness for C5: a body with no `blogUrl` on the empty store. -/
theorem simple_validation_witness :
    (⟨none, some (.arr ["x"])⟩ : SimpleReq).blogUrl = none ∧
    ∃ msg, handleSimplePost phEx "T" 1 "POST" ⟨none, some (.arr ["x"])⟩ emptyStore =
      (.err msg 400, emptyStore) :=
  ⟨rfl, simple_validation_no_side_effects phEx "T" 1 _ emptyStore (Or.inl rfl)⟩

/-! ## Claim C6 — PUT on an absent id -/

/-- Claim C6 as stated fails on the code: `PUT /api/blogs/5` on the empty
store with a valid body answers `createSuccessResponse(null)` — a status-200
success whose body is `null` — not a not-found error. -/
theorem put_missing_id_counterexample :
    (handleBlogsPut (some 5) putBodyNS emptyStore).1 = .ok none ∧
    statusOfResp (handleBlogsPut (some 5) putBodyNS emptyStore).1 = 200 ∧
    (handleBlogsPut (some 5) putBodyNS emptyStore).1 ≠ .err "Blog not found" 404 := by
  refine ⟨rfl, rfl, by decide⟩

/-- Claim C6 amended: a PUT on a single-entity resource whose id does not
identify an existing row runs a no-op update and reports success (status 200)
with a `null` row — it does not produce a not-found error (shown here for the
blogs handler; the other entity handlers repeat the same template). -/
theorem put_missing_id_amended (s : Store) (n : Int) (body : BlogBody)
    (hn : n ≠ 0) (hname : truthyStr body.Name = true)
    (hslug : truthyStr body.Slug = true)
    (habs : findBlogById n s = none) :
    handleBlogsPut (some n) body s = (.ok none, s) := by
  have hbeq : (n == 0) = false := beq_eq_false_iff_ne.mpr hn
  have hall : ∀ b ∈ s.blogs, (b.BlogId == n) = false := by
    intro b hb
    have := List.find?_eq_none.mp habs b hb
    simpa using this
  have hmap : (s.blogs.map (fun b =>
      if b.BlogId == n then
        { b with
          Name := body.Name.getD "", Slug := body.Slug.getD "",
          Description := jsOrNullStr body.Description,
          Url := jsOrNullStr body.Url }
      else b)) = s.blogs := by
    calc s.blogs.map _ = s.blogs.map id :=
          List.map_congr_left (fun b hb => by simp [hall b hb])
      _ = s.blogs := List.map_id _
  simp only [handleBlogsPut, hbeq, Bool.false_eq_true, if_false, hname, hslug,
    Bool.and_self, if_true, hmap, findBlogById]
  rw [show ({ s with blogs := s.blogs } : Store) = s from rfl]
  rw [show s.blogs.find? (fun b => b.BlogId == n) = none from habs]

/-- Witness for the amended C6 theorem: id 5 on the empty store. -/
theorem put_missing_id_amended_witness :
    (5 : Int) ≠ 0 ∧ truthyStr putBodyNS.Name = true ∧
    findBlogById 5 emptyStore = none ∧
    handleBlogsPut (some 5) putBodyNS emptyStore = (.ok none, emptyStore) :=
  ⟨by decide, rfl, rfl,
   put_missing_id_amended emptyStore 5 putBodyNS (by decide) rfl rfl rfl⟩

/-! ## Claim C8 — non-numeric or zero path id falls back to the collection -/

/-- Claim C8: when the third path segment does not parse to a nonzero integer
(`parseInt` gives `NaN` or `0`), the handler takes the collection branch — a
GET answers the full ordered collection, exactly as with no id segment. -/
theorem nonid_segment_collection (seg : String) (s : Store)
    (h : parseIntJs seg = none ∨ parseIntJs seg = some 0) :
    handleBlogsGet (routeThirdSegment (some seg)) s =
      .ok (.many (allBlogsNewestFirst s)) ∧
    handleBlogsGet (routeThirdSegment (some seg)) s =
      handleBlogsGet (routeThirdSegment none) s := by
  have hmain : handleBlogsGet (routeThirdSegment (some seg)) s =
      .ok (.many (allBlogsNewestFirst s)) := by
    unfold routeThirdSegment
    by_cases he : seg.isEmpty
    · simp [he, handleBlogsGet]
    · rcases h with h | h <;> simp [he, h, handleBlogsGet]
  exact ⟨hmain, by rw [hmain]; rfl⟩

/-- Witness for C8: segment "abc" against a store holding one blog. -/
theorem nonid_segment_collection_witness :
    (parseIntJs "abc" = none ∨ parseIntJs "abc" = some 0) ∧
    handleBlogsGet (routeThirdSegment (some "abc")) seedStore =
      .ok (.many (allBlogsNewestFirst seedStore)) :=
  ⟨Or.inl rfl, (nonid_segment_collection "abc" seedStore (Or.inl rfl)).1⟩

/-! ## Claim C9 — DELETE never checks existence -/

/-- Claim C9: a DELETE with any nonzero integer id answers the fixed success
message with status 200, for any store state — the response for an absent id
is identical to the response for a present one (shown for the blogs and the
comments handlers, the two named by the claim). -/
theorem delete_ignores_existence (s t : Store) (n : Int) (h : n ≠ 0) :
    (handleBlogsDelete (some n) s).1 = .ok "Blog deleted successfully" ∧
    statusOfResp (handleBlogsDelete (some n) s).1 = 200 ∧
    (handleBlogsDelete (some n) s).1 = (handleBlogsDelete (some n) t).1 ∧
    (handleCommentsDelete (some n) s).1 = .ok "Comment deleted successfully" ∧
    statusOfResp (handleCommentsDelete (some n) s).1 = 200 ∧
    (handleCommentsDelete (some n) s).1 = (handleCommentsDelete (some n) t).1 := by
  have hbeq : (n == 0) = false := beq_eq_false_iff_ne.mpr h
  simp [handleBlogsDelete, handleCommentsDelete, hbeq, statusOfResp]

/-- Witness for C9: id 7, compared across the empty store and the seeded
store (id 7 exists in neither, and the responses agree anyway). -/
theorem delete_ignores_existence_witness :
    (7 : Int) ≠ 0 ∧
    ((handleBlogsDelete (some 7) emptyStore).1 = .ok "Blog deleted successfully" ∧
     statusOfResp (handleBlogsDelete (some 7) emptyStore).1 = 200 ∧
     (handleBlogsDelete (some 7) emptyStore).1 = (handleBlogsDelete (some 7) seedStore).1 ∧
     (handleCommentsDelete (some 7) emptyStore).1 = .ok "Comment deleted successfully" ∧
     statusOfResp (handleCommentsDelete (some 7) emptyStore).1 = 200 ∧
     (handleCommentsDelete (some 7) emptyStore).1 = (handleCommentsDelete (some 7) seedStore).1) :=
  ⟨by decide, delete_ignores_existence emptyStore seedStore 7 (by decide)⟩

/-! ## Claim C10 — the `published` query parameter -/

/-- Claim C10: in the post-collection filter, any non-empty `published` value
other than exactly "true" filters for `IsPublished = 0`; exactly "true"
filters for `IsPublished = 1`; an absent or empty value adds no publication
clause at all. -/
theorem published_filter_semantics (q : PostQuery) (p : PostRow) (v : String)
    (h1 : v ≠ "") (h2 : v ≠ "true") :
    postMatches { q with published := some v } p =
      (postMatches { q with published := none } p && (p.IsPublished == 0)) ∧
    postMatches { q with published := some "true" } p =
      (postMatches { q with published := none } p && (p.IsPublished == 1)) ∧
    postMatches { q with published := some "" } p =
      postMatches { q with published := none } p := by
  have hv : v.isEmpty = false := by
    cases hv' : v.isEmpty
    · rfl
    · exact absurd ((String.isEmpty_iff v).mp hv') h1
  have hvt : (v == "true") = false := beq_eq_false_iff_ne.mpr h2
  have htr : ("true" : String).isEmpty = false := rfl
  have hem : ("" : String).isEmpty = true := rfl
  refine ⟨?_, ?_, ?_⟩ <;>
    simp [postMatches, publishedCond, hv, hvt, htr, hem, Bool.and_assoc,
      Bool.and_comm, Bool.and_left_comm]

/-- Witness for C10 at the value "false" on an unpublished post with no other
filters. -/
theorem published_filter_semantics_witness :
    ("false" : String) ≠ "" ∧ ("false" : String) ≠ "true" ∧
    (postMatches { q0 with published := some "false" } p0 =
      (postMatches { q0 with published := none } p0 && (p0.IsPublished == 0)) ∧
     postMatches { q0 with published := some "true" } p0 =
      (postMatches { q0 with published := none } p0 && (p0.IsPublished == 1)) ∧
     postMatches { q0 with published := some "" } p0 =
      postMatches { q0 with published := none } p0) :=
  ⟨by decide, by decide,
   published_filter_semantics q0 p0 "false" (by decide) (by decide)⟩

/-! ## Claim C7 — published posts carry a PublishedAt -/

theorem jsOrInt0_eq_one_truthy (o : Option Int) (h : jsOrInt0 o = 1) :
    truthyInt o = true := by
  cases hB : truthyInt o
  · rw [jsOrInt0, hB] at h
    simp at h
  · rfl

theorem pubAt_ne_none (ts : String) (hts : ts ≠ "") (ip : Option Int)
    (pa : Option String) (hp : truthyInt ip = true) :
    jsOrNullStr (if truthyInt ip && !truthyStr pa then some ts else pa) ≠ none := by
  have hts' : ts.isEmpty = false := by
    cases h : ts.isEmpty
    · rfl
    · exact absurd ((String.isEmpty_iff ts).mp h) hts
  rcases pa with _ | v
  · simp [hp, truthyStr, jsOrNullStr, hts']
  · by_cases hv : v.isEmpty
    · simp [hp, truthyStr, hv, jsOrNullStr, hts']
    · simp [hp, truthyStr, hv, jsOrNullStr]

/-- Any published row written by the create/update template satisfies the
invariant. -/
theorem published_row_inv (ts : String) (hts : ts ≠ "") (ip : Option Int)
    (pa : Option String) (row : PostRow)
    (hIs : row.IsPublished = jsOrInt0 ip)
    (hPub : row.PublishedAt =
      jsOrNullStr (if truthyInt ip && !truthyStr pa then some ts else pa))
    (h1 : row.IsPublished = 1) : row.PublishedAt ≠ none := by
  rw [hPub]
  exact pubAt_ne_none ts hts ip pa (jsOrInt0_eq_one_truthy ip (hIs ▸ h1))

theorem tagsInsert_posts (pid : Int) (l : List Int) (st : Store) :
    (tagsInsert pid l st).posts = st.posts := by
  unfold tagsInsert
  induction l generalizing st with
  | nil => rfl
  | cons a l ih => exact ih _

theorem handlePostsCreate_inv (ts : String) (body : PostBody) (s : Store)
    (hts : ts ≠ "") (hinv : PublishedInv s.posts) :
    PublishedInv (handlePostsCreate ts body s).2.posts := by
  have hrow : PublishedInv (s.posts ++ [postRowOfBody ts body s.nextPostId]) := by
    intro p hp h1
    rcases List.mem_append.mp hp with hold | hnew
    · exact hinv p hold h1
    · rcases List.mem_singleton.mp hnew with rfl
      exact published_row_inv ts hts body.IsPublished body.PublishedAt _ rfl rfl h1
  unfold handlePostsCreate
  split
  case isFalse => exact hinv
  case isTrue hV =>
    split
    · exact hinv
    split
    · exact hinv
    split
    · exact hinv
    simp only [insertPostRow]
    split
    · rw [tagsInsert_posts]
      exact hrow
    · exact hrow

theorem handlePostsUpdate_inv (ts : String) (i : Option Int) (body : PostBody)
    (s : Store) (hts : ts ≠ "") (hinv : PublishedInv s.posts) :
    PublishedInv (handlePostsUpdate ts i body s).2.posts := by
  unfold handlePostsUpdate
  split
  case h_2 => exact hinv
  case h_1 pid =>
    have hmap : PublishedInv (postsUpdStore ts body pid s).posts := by
      intro p' hp' h1
      obtain ⟨p, hp, hfp⟩ := List.mem_map.mp hp'
      by_cases hid : (p.PostId == pid) = true
      · rw [hid] at hfp
        simp only [if_true] at hfp
        subst hfp
        exact published_row_inv ts hts body.IsPublished body.PublishedAt _ rfl rfl h1
      · rw [Bool.not_eq_true] at hid
        rw [hid] at hfp
        simp only [Bool.false_eq_true, if_false] at hfp
        subst hfp
        exact hinv p hp h1
    split
    · exact hinv
    split
    case isFalse => exact hinv
    case isTrue hV =>
      split
      · exact hinv
      split
      · exact hinv
      split
      · exact hinv
      split
      · rw [tagsInsert_posts]
        exact hmap
      · exact hmap

theorem resolveBlog_posts (ph : String → Option String) (ts url : String)
    (s : Store) : (resolveBlog ph ts url s).2.posts = s.posts := by
  unfold resolveBlog
  split
  · rfl
  split
  · rfl
  simp only [insertBlogRow]
  split
  · rfl
  · rfl

theorem resolveAuthor_posts (ph : String → Option String) (ts url : String)
    (b : BlogRow) (s : Store) : (resolveAuthor ph ts url b s).2.posts = s.posts := by
  unfold resolveAuthor
  split
  · rfl
  split
  · rfl
  simp only [insertAuthorRow]
  split
  · rfl
  · rfl

theorem resolveCategory_posts (b : BlogRow) (s : Store) :
    (resolveCategory b s).2.posts = s.posts := by
  unfold resolveCategory
  split
  · rfl
  simp only [insertCategoryRow]
  split
  · rfl
  · rfl

/-- The loop of the ingestion workflow: posts are appended, one per non-blank
entry, every appended row published with `PublishedAt = ts`; blogs, authors
and categories are untouched. -/
theorem createPosts_spec (ts : String) (ms : Nat) (b : BlogRow) (a : AuthorRow)
    (c : CategoryRow) (texts : List String) : ∀ (i : Nat) (s : Store),
    ∃ new,
      (createPosts ts ms b a c texts i s).2.posts = s.posts ++ new ∧
      new.length = countNonBlank texts ∧
      (createPosts ts ms b a c texts i s).1.length = countNonBlank texts ∧
      (createPosts ts ms b a c texts i s).2.blogs = s.blogs ∧
      (createPosts ts ms b a c texts i s).2.authors = s.authors ∧
      (createPosts ts ms b a c texts i s).2.categories = s.categories ∧
      ∀ p ∈ new, p.IsPublished = 1 ∧ p.PublishedAt = some ts := by
  induction texts with
  | nil =>
    intro i s
    refine ⟨[], ?_, ?_, ?_, ?_, ?_, ?_, ?_⟩ <;> simp [createPosts, countNonBlank]
  | cons t rest ih =>
    intro i s
    by_cases hb : (jsTrim t).isEmpty
    · obtain ⟨new, h1, h2, h3, h4, h5, h6, h7⟩ := ih (i + 1) s
      refine ⟨new, ?_, ?_, ?_, ?_, ?_, ?_, h7⟩ <;>
        simp [createPosts, hb, countNonBlank, List.filter_cons] at h2 h3 ⊢ <;>
        first
          | exact h1
          | exact h2
          | exact h3
          | exact h4
          | exact h5
          | exact h6
    · obtain ⟨new, h1, h2, h3, h4, h5, h6, h7⟩ :=
        ih (i + 1) (insertPostRow (simplePostRow ts ms b a c (jsTrim t) i) s).2
      refine ⟨simplePostRow ts ms b a c (jsTrim t) i s.nextPostId :: new,
        ?_, ?_, ?_, ?_, ?_, ?_, ?_⟩
      · simp only [createPosts, hb, Bool.false_eq_true, if_false, insertPostRow] at h1 ⊢
        rw [h1]
        simp
      · simpa [countNonBlank, List.filter_cons, hb] using h2
      · simp only [createPosts, hb, Bool.false_eq_true, if_false, insertPostRow] at h3 ⊢
        simp [h3, countNonBlank, List.filter_cons, hb]
      · simp only [createPosts, hb, Bool.false_eq_true, if_false, insertPostRow] at h4 ⊢
        exact h4
      · simp only [createPosts, hb, Bool.false_eq_true, if_false, insertPostRow] at h5 ⊢
        exact h5
      · simp only [createPosts, hb, Bool.false_eq_true, if_false, insertPostRow] at h6 ⊢
        exact h6
      · intro p hp
        rcases List.mem_cons.mp hp with rfl | hmem
        · exact ⟨rfl, rfl⟩
        · exact h7 p hmem

theorem handleSimplePost_inv (ph : String → Option String) (ts : String)
    (ms : Nat) (method : String) (req : SimpleReq) (s : Store)
    (hinv : PublishedInv s.posts) :
    PublishedInv (handleSimplePost ph ts ms method req s).2.posts := by
  unfold handleSimplePost
  split
  · exact hinv
  split
  case h_2 => exact hinv
  case h_1 u txts hu htx =>
    split
    · exact hinv
    split
    · exact hinv
    split
    case h_1 e s1 heq =>
      have : s1.posts = s.posts := by
        have := resolveBlog_posts ph ts u s
        rw [heq] at this
        exact this
      rw [this]
      exact hinv
    case h_2 b s1 heq =>
      have hs1 : s1.posts = s.posts := by
        have := resolveBlog_posts ph ts u s
        rw [heq] at this
        exact this
      split
      case h_1 e s2 heq2 =>
        have : s2.posts = s1.posts := by
          have := resolveAuthor_posts ph ts u b s1
          rw [heq2] at this
          exact this
        rw [this, hs1]
        exact hinv
      case h_2 a s2 heq2 =>
        have hs2 : s2.posts = s1.posts := by
          have := resolveAuthor_posts ph ts u b s1
          rw [heq2] at this
          exact this
        split
        case h_1 e s3 heq3 =>
          have : s3.posts = s2.posts := by
            have := resolveCategory_posts b s2
            rw [heq3] at this
            exact this
          rw [this, hs2, hs1]
          exact hinv
        case h_2 c s3 heq3 =>
          have hs3 : s3.posts = s2.posts := by
            have := resolveCategory_posts b s2
            rw [heq3] at this
            exact this
          obtain ⟨new, h1, _, _, _, _, _, h7⟩ := createPosts_spec ts ms b a c txts 0 s3
          intro p hp h1pub
          rw [h1] at hp
          rcases List.mem_append.mp hp with hold | hnew
          · rw [hs3, hs2, hs1] at hold
            exact hinv p hold h1pub
          · rw [(h7 p hnew).2]
            simp

/-- Claim C7: in every store state reachable via the Post create operation,
the Post update operation and the ingestion workflow, a Post row with
`IsPublished = 1` has a non-null `PublishedAt` (each of these operations
substitutes the current timestamp when a published post is written without a
supplied `PublishedAt`). -/
theorem published_implies_timestamp (s : Store) (h : Reach s) :
    ∀ p ∈ s.posts, p.IsPublished = 1 → p.PublishedAt ≠ none := by
  induction h with
  | init s h => simp [h]
  | createPost s ts body hts h ih => exact handlePostsCreate_inv ts body s hts ih
  | updatePost s ts i body hts h ih => exact handlePostsUpdate_inv ts i body s hts ih
  | ingest s ph ts ms method req h ih =>
    exact handleSimplePost_inv ph ts ms method req s ih

/-- Witness for C7: creating a published post without a `PublishedAt` on the
seeded store yields a reachable one-post state whose row satisfies the
invariant. -/
theorem published_implies_timestamp_witness :
    Reach reachedStore ∧ reachedStore.posts.length = 1 ∧
    (∀ p ∈ reachedStore.posts, p.IsPublished = 1 → p.PublishedAt ≠ none) := by
  have hr : Reach reachedStore :=
    Reach.createPost seedStore "2024-01-01T00:00:00.000Z" pubBody (by decide)
      (Reach.init seedStore rfl)
  exact ⟨hr, rfl, published_implies_timestamp reachedStore hr⟩

/-! ## Claim C4 — running the ingestion workflow twice -/

theorem find?_append_singleton (p : α → Bool) (l : List α) (x : α)
    (hl : ∀ y ∈ l, p y = false) (hx : p x = true) :
    (l ++ [x]).find? p = some x := by
  rw [find?_append_right p l [x] hl]
  simp [List.find?, hx]

theorem find_author_after_insert (s : Store) (hwf : authorsWFb s = true)
    (row : AuthorRow) (hrow : row.AuthorId = s.nextAuthorId) :
    (s.authors ++ [row]).find? (fun a => a.AuthorId == s.nextAuthorId) = some row := by
  apply find?_append_singleton
  · intro y hy
    have hlt : y.AuthorId < s.nextAuthorId :=
      of_decide_eq_true ((List.all_eq_true.mp hwf) y hy)
    simp only [beq_eq_false_iff_ne, ne_eq]
    omega
  · simp [hrow]

theorem find_category_after_insert (s : Store) (hwf : categoriesWFb s = true)
    (row : CategoryRow) (hrow : row.CategoryId = s.nextCategoryId) :
    (s.categories ++ [row]).find? (fun c => c.CategoryId == s.nextCategoryId) = some row := by
  apply find?_append_singleton
  · intro y hy
    have hlt : y.CategoryId < s.nextCategoryId :=
      of_decide_eq_true ((List.all_eq_true.mp hwf) y hy)
    simp only [beq_eq_false_iff_ne, ne_eq]
    omega
  · simp [hrow]

/-- Successful blog resolution: afterwards the lookup by Url finds exactly the
resolved row, and nothing outside the blogs table has moved. -/
theorem resolveBlog_ok (ph : String → Option String) (ts url : String)
    (s s' : Store) (b : BlogRow) (hwf : blogsWFb s = true)
    (h : resolveBlog ph ts url s = (.ok b, s')) :
    findBlogByUrl url s' = some b ∧
    s'.authors = s.authors ∧ s'.categories = s.categories ∧ s'.posts = s.posts ∧
    s'.nextAuthorId = s.nextAuthorId ∧ s'.nextCategoryId = s.nextCategoryId := by
  unfold resolveBlog at h
  cases hfb : findBlogByUrl url s with
  | some bb =>
    rw [hfb] at h
    injection h with h1 h2
    injection h1 with h1
    subst h1
    subst h2
    exact ⟨hfb, rfl, rfl, rfl, rfl, rfl⟩
  | none =>
    rw [hfb] at h
    cases hph : ph url with
    | none =>
      rw [hph] at h
      exact absurd h (by simp)
    | some host =>
      rw [hph] at h
      simp only [insertBlogRow, findBlogById] at h
      rw [find_blog_after_insert s hwf _ rfl] at h
      injection h with h1 h2
      injection h1 with h1
      subst h1
      subst h2
      refine ⟨?_, rfl, rfl, rfl, rfl, rfl⟩
      apply find?_append_singleton
      · intro y hy
        have := List.find?_eq_none.mp hfb y hy
        simpa using this
      · simp

/-- Successful author resolution: afterwards the lookup by owning BlogId
finds exactly the resolved row, and nothing outside the authors table has
moved. -/
theorem resolveAuthor_ok (ph : String → Option String) (ts url : String)
    (b : BlogRow) (s s' : Store) (a : AuthorRow) (hwf : authorsWFb s = true)
    (h : resolveAuthor ph ts url b s = (.ok a, s')) :
    findAuthorByBlog b.BlogId s' = some a ∧
    s'.blogs = s.blogs ∧ s'.categories = s.categories ∧ s'.posts = s.posts ∧
    s'.nextCategoryId = s.nextCategoryId := by
  unfold resolveAuthor at h
  cases hfa : findAuthorByBlog b.BlogId s with
  | some aa =>
    rw [hfa] at h
    injection h with h1 h2
    injection h1 with h1
    subst h1
    subst h2
    exact ⟨hfa, rfl, rfl, rfl, rfl⟩
  | none =>
    rw [hfa] at h
    cases hph : ph url with
    | none =>
      rw [hph] at h
      exact absurd h (by simp)
    | some host =>
      rw [hph] at h
      simp only [insertAuthorRow, findAuthorById] at h
      rw [find_author_after_insert s hwf _ rfl] at h
      injection h with h1 h2
      injection h1 with h1
      subst h1
      subst h2
      refine ⟨?_, rfl, rfl, rfl, rfl⟩
      apply find?_append_singleton
      · intro y hy
        have := List.find?_eq_none.mp hfa y hy
        simpa using this
      · simp

/-- Successful category resolution: afterwards the lookup by owning BlogId
finds exactly the resolved row, and nothing outside the categories table has
moved. -/
theorem resolveCategory_ok (b : BlogRow) (s s' : Store) (c : CategoryRow)
    (hwf : categoriesWFb s = true)
    (h : resolveCategory b s = (.ok c, s')) :
    findCategoryByBlog b.BlogId s' = some c ∧
    s'.blogs = s.blogs ∧ s'.authors = s.authors ∧ s'.posts = s.posts := by
  unfold resolveCategory at h
  cases hfc : findCategoryByBlog b.BlogId s with
  | some cc =>
    rw [hfc] at h
    injection h with h1 h2
    injection h1 with h1
    subst h1
    subst h2
    exact ⟨hfc, rfl, rfl, rfl⟩
  | none =>
    rw [hfc] at h
    simp only [insertCategoryRow, findCategoryById] at h
    rw [find_category_after_insert s hwf _ rfl] at h
    injection h with h1 h2
    injection h1 with h1
    subst h1
    subst h2
    refine ⟨?_, rfl, rfl, rfl⟩
    apply find?_append_singleton
    · intro y hy
      have := List.find?_eq_none.mp hfc y hy
      simpa using this
    · simp

/-- A successful ingestion run leaves a state in which the very lookups of a
second run with the same `blogUrl` resolve the returned Blog, Author and
Category rows. -/
theorem handleSimplePost_ok_spec (ph : String → Option String) (ts : String)
    (ms : Nat) (url : String) (texts : List String) (s₀ s₁ : Store)
    (b : BlogRow) (a : AuthorRow) (c : CategoryRow) (n : Nat)
    (ps : List (Option EnrichedPost))
    (hwfB : blogsWFb s₀ = true) (hwfA : authorsWFb s₀ = true)
    (hwfC : categoriesWFb s₀ = true)
    (h : handleSimplePost ph ts ms "POST" ⟨some url, some (.arr texts)⟩ s₀ =
      (.ok b a c n ps, s₁)) :
    url.isEmpty = false ∧
    findBlogByUrl url s₁ = some b ∧
    findAuthorByBlog b.BlogId s₁ = some a ∧
    findCategoryByBlog b.BlogId s₁ = some c := by
  unfold handleSimplePost at h
  simp only [beq_self_eq_true, Bool.not_true, Bool.false_eq_true, if_false] at h
  by_cases hu : url.isEmpty
  · rw [if_pos hu] at h
    exact absurd h (by simp)
  · rw [if_neg hu] at h
    by_cases ht : texts.isEmpty
    · rw [if_pos ht] at h
      exact absurd h (by simp)
    · rw [if_neg ht] at h
      rcases hrb : resolveBlog ph ts url s₀ with ⟨fb, sB⟩
      rw [hrb] at h
      rcases fb with e | b'
      · dsimp only at h
        exact absurd h (by simp)
      dsimp only at h
      obtain ⟨hb1, hb2, hb3, hb4, hb5, hb6⟩ :=
        resolveBlog_ok ph ts url s₀ sB b' hwfB hrb
      have hwfA' : authorsWFb sB = true := by
        unfold authorsWFb at hwfA ⊢
        rw [hb2, hb5]
        exact hwfA
      rcases hra : resolveAuthor ph ts url b' sB with ⟨fa, sA⟩
      rw [hra] at h
      rcases fa with e | a'
      · dsimp only at h
        exact absurd h (by simp)
      dsimp only at h
      obtain ⟨ha1, ha2, ha3, ha4, ha5⟩ :=
        resolveAuthor_ok ph ts url b' sB sA a' hwfA' hra
      have hwfC' : categoriesWFb sA = true := by
        unfold categoriesWFb at hwfC ⊢
        rw [ha3, hb3, ha5, hb6]
        exact hwfC
      rcases hrc : resolveCategory b' sA with ⟨fc, sC⟩
      rw [hrc] at h
      rcases fc with e | c'
      · dsimp only at h
        exact absurd h (by simp)
      dsimp only at h
      obtain ⟨hc1, hc2, hc3, hc4⟩ := resolveCategory_ok b' sA sC c' hwfC' hrc
      obtain ⟨new, k1, k2, k3, k4, k5, k6, k7⟩ :=
        createPosts_spec ts ms b' a' c' texts 0 sC
      rcases hcp : createPosts ts ms b' a' c' texts 0 sC with ⟨es, s₄⟩
      rw [hcp] at h
      simp only [hcp] at k4 k5 k6
      dsimp only at h
      injection h with h1 h2
      injection h1 with hb' ha' hc' hn hps
      subst hb'
      subst ha'
      subst hc'
      subst h2
      refine ⟨by simpa using hu, ?_, ?_, ?_⟩
      · unfold findBlogByUrl
        rw [k4, hc2, ha2]
        exact hb1
      · unfold findAuthorByBlog
        rw [k5, hc3]
        exact ha1
      · unfold findCategoryByBlog
        rw [k6]
        exact hc1

/-- When the Blog, a default Author and a default Category all resolve by
lookup, the workflow only appends posts. -/
theorem handleSimplePost_allFound (ph : String → Option String) (ts : String)
    (ms : Nat) (url : String) (texts : List String) (s : Store)
    (b : BlogRow) (a : AuthorRow) (c : CategoryRow)
    (hu : url.isEmpty = false) (ht : texts.isEmpty = false)
    (hb : findBlogByUrl url s = some b)
    (ha : findAuthorByBlog b.BlogId s = some a)
    (hc : findCategoryByBlog b.BlogId s = some c) :
    handleSimplePost ph ts ms "POST" ⟨some url, some (.arr texts)⟩ s =
      (.ok b a c (createPosts ts ms b a c texts 0 s).1.length
        (createPosts ts ms b a c texts 0 s).1,
       (createPosts ts ms b a c texts 0 s).2) := by
  rcases hcp : createPosts ts ms b a c texts 0 s with ⟨es, s4⟩
  unfold handleSimplePost resolveBlog
  simp only [beq_self_eq_true, Bool.not_true, Bool.false_eq_true, if_false,
    hu, ht, hb]
  unfold resolveAuthor
  simp only [ha]
  unfold resolveCategory
  simp only [hc, hcp]

/-- Claim C4: running the ingestion workflow a second time with the same
`blogUrl`, starting from the state the first successful run left, creates no
second Blog, Author or Category (the same rows are re-resolved by lookup), but
does insert one new Post per non-blank entry of the second run's `postTexts`. -/
theorem ingest_twice_idempotent_parents
    (ph₁ ph₂ : String → Option String) (ts₁ ts₂ : String) (ms₁ ms₂ : Nat)
    (url : String) (texts₁ texts₂ : List String) (s₀ s₁ : Store)
    (b : BlogRow) (a : AuthorRow) (c : CategoryRow) (n : Nat)
    (ps : List (Option EnrichedPost))
    (hwf : storeWFb s₀ = true)
    (h₁ : handleSimplePost ph₁ ts₁ ms₁ "POST" ⟨some url, some (.arr texts₁)⟩ s₀ =
      (.ok b a c n ps, s₁))
    (h₂ : texts₂.isEmpty = false) :
    ∃ es s₂,
      handleSimplePost ph₂ ts₂ ms₂ "POST" ⟨some url, some (.arr texts₂)⟩ s₁ =
        (.ok b a c (countNonBlank texts₂) es, s₂) ∧
      s₂.blogs = s₁.blogs ∧ s₂.authors = s₁.authors ∧
      s₂.categories = s₁.categories ∧
      s₂.posts.length = s₁.posts.length + countNonBlank texts₂ := by
  have hwf' := hwf
  unfold storeWFb at hwf'
  simp only [Bool.and_eq_true] at hwf'
  obtain ⟨⟨⟨hwfB, hwfA⟩, hwfC⟩, _⟩ := hwf'
  obtain ⟨hu, hb, ha, hc⟩ :=
    handleSimplePost_ok_spec ph₁ ts₁ ms₁ url texts₁ s₀ s₁ b a c n ps
      hwfB hwfA hwfC h₁
  have hrun2 := handleSimplePost_allFound ph₂ ts₂ ms₂ url texts₂ s₁ b a c
    hu h₂ hb ha hc
  obtain ⟨new, k1, k2, k3, k4, k5, k6, _⟩ :=
    createPosts_spec ts₂ ms₂ b a c texts₂ 0 s₁
  refine ⟨(createPosts ts₂ ms₂ b a c texts₂ 0 s₁).1,
          (createPosts ts₂ ms₂ b a c texts₂ 0 s₁).2, ?_, k4, k5, k6, ?_⟩
  · rw [hrun2, k3]
  · rw [k1]
    simp [k2]

/-- Witness for C4: ingest `["Hi."]` into the empty store, then ingest
`["Valid."]` with the same `blogUrl` from the resulting state. -/
theorem ingest_twice_idempotent_parents_witness :
    storeWFb emptyStore = true ∧
    (["Valid."] : List String).isEmpty = false ∧
    handleSimplePost phMyblog "T1" 100 "POST"
        ⟨some "https://myblog.com", some (.arr ["Hi."])⟩ emptyStore =
      (.ok wBlog wAuthor wCat 1 wPosts,
       (handleSimplePost phMyblog "T1" 100 "POST"
         ⟨some "https://myblog.com", some (.arr ["Hi."])⟩ emptyStore).2) ∧
    (∃ es s₂,
      handleSimplePost phMyblog "T2" 200 "POST"
          ⟨some "https://myblog.com", some (.arr ["Valid."])⟩
          (handleSimplePost phMyblog "T1" 100 "POST"
            ⟨some "https://myblog.com", some (.arr ["Hi."])⟩ emptyStore).2 =
        (.ok wBlog wAuthor wCat (countNonBlank ["Valid."]) es, s₂) ∧
      s₂.blogs = (handleSimplePost phMyblog "T1" 100 "POST"
        ⟨some "https://myblog.com", some (.arr ["Hi."])⟩ emptyStore).2.blogs ∧
      s₂.authors = (handleSimplePost phMyblog "T1" 100 "POST"
        ⟨some "https://myblog.com", some (.arr ["Hi."])⟩ emptyStore).2.authors ∧
      s₂.categories = (handleSimplePost phMyblog "T1" 100 "POST"
        ⟨some "https://myblog.com", some (.arr ["Hi."])⟩ emptyStore).2.categories ∧
      s₂.posts.length = (handleSimplePost phMyblog "T1" 100 "POST"
        ⟨some "https://myblog.com", some (.arr ["Hi."])⟩ emptyStore).2.posts.length +
          countNonBlank ["Valid."]) :=
  ⟨rfl, rfl, rfl,
   ingest_twice_idempotent_parents phMyblog phMyblog "T1" "T2" 100 200
     "https://myblog.com" ["Hi."] ["Valid."] emptyStore
     (handleSimplePost phMyblog "T1" 100 "POST"
       ⟨some "https://myblog.com", some (.arr ["Hi."])⟩ emptyStore).2
     wBlog wAuthor wCat 1 wPosts rfl rfl rfl⟩

end BlogApi
